import Mathlib

/-!
Verification development for the `trad` scraper pipeline: a shallow embedding
of the entity model (`trad/core/entities.py`, and the entity module used by the
application layer), the merge filter (`trad/application/filters/regular/merge.py`),
the validation filter (`trad/application/filters/regular/validation.py`), the
pipe implementation (`trad/application/pipes.py`), the relational sink
(`trad/application/filters/sink/db_v1/__init__.py`) and the pipeline engine
(`trad/kernel/usecases.py`), together with theorems settling the specification
claims about them.
-/

deriving instance DecidableEq for Except

namespace Trad

/-! ## Geographic positions (`trad/core/entities.py`, class GeoPosition) -/

/-- A WGS 84 point with latitude and longitude stored as signed integers scaled
by 10^7, exactly the representation of `GeoPosition` (`core/entities.py` lines
17-99). -/
structure GeoPos where
  lat : Int
  lon : Int
deriving DecidableEq, Repr

/-- The scaling factor `GeoPosition._COORDINATE_PRECISION`. -/
def COORDINATE_PRECISION : Int := 10000000

/-- The value carried by the reserved `UNDEFINED_GEOPOSITION = GeoPosition(0, 0)`
singleton (`core/entities.py` line 90). -/
def UNDEFINED_GEOPOSITION : GeoPos := ⟨0, 0⟩

/-- Modelled from the spec: `GeoPosition.is_equal_to` of the entity module used
by the application layer (`trad.kernel.entities`, absent from the sources; only
its tests and callers are present).  The spec prescribes "equality by both
fields", and `test_entities.py::test_is_equal_to` pins it down: it returns true
exactly when the latitude integers and the longitude integers agree. -/
def GeoPos.is_equal_to (p q : GeoPos) : Bool :=
  p.lat == q.lat && p.lon == q.lon

/-- Inside entity records a position field is either the `UNDEFINED_GEOPOSITION`
singleton object (modelled as `none`) or some other `GeoPosition` object with
its coordinate values (modelled as `some`).  The sources compare position
fields against the singleton with `is` / default object equality, which the
`Option` layer captures. -/
abbrev PosRef := Option GeoPos

/-! ## Name normalization (`trad/core/entities.py`, class UniqueIdentifier).
The application layer's `NormalizedName` implements the same normalization, as
fixed by `test_entities.py::TestNormalizedName`. -/

/-- Membership in Python's `string.printable`: ASCII 0x20-0x7e plus the
whitespace controls TAB, LF, CR, VT, FF. -/
def pyPrintable (c : Char) : Bool :=
  (32 ≤ c.toNat && c.toNat ≤ 126) || c.toNat == 9 || c.toNat == 10 ||
    c.toNat == 13 || c.toNat == 11 || c.toNat == 12

/-- Membership in Python's `string.punctuation` (the four ASCII punctuation
ranges). -/
def pyPunct (c : Char) : Bool :=
  (33 ≤ c.toNat && c.toNat ≤ 47) || (58 ≤ c.toNat && c.toNat ≤ 64) ||
    (91 ≤ c.toNat && c.toNat ≤ 96) || (123 ≤ c.toNat && c.toNat ≤ 126)

/-- Membership in the whitespace set used by Python's `str.split()`. -/
def pyWs (c : Char) : Bool :=
  c.toNat == 32 || c.toNat == 9 || c.toNat == 10 || c.toNat == 13 ||
    c.toNat == 11 || c.toNat == 12

/-- One step of whitespace splitting: accumulate the current segment (in
reverse) and flush it when whitespace is met. -/
def splitWsStep (acc : List String × List Char) (c : Char) : List String × List Char :=
  if pyWs c then
    if acc.2.isEmpty then acc else (acc.1 ++ [String.mk acc.2.reverse], [])
  else (acc.1, c :: acc.2)

/-- Python's `str.split()` with no argument: split on runs of whitespace,
dropping empty segments. -/
def splitWs (cs : List Char) : List String :=
  let r := cs.foldl splitWsStep ([], [])
  if r.2.isEmpty then r.1 else r.1 ++ [String.mk r.2.reverse]

/-- Lexicographic code-point comparison of character lists, Python's string
ordering used by `sorted`. -/
def charListLe : List Char → List Char → Bool
  | [], _ => true
  | _ :: _, [] => false
  | a :: as, b :: bs => if a = b then charListLe as bs else decide (a < b)

/-- String comparison for `sorted(...)`. -/
def strLe (a b : String) : Bool := charListLe a.toList b.toList

/-- Insert a string into an already sorted list. -/
def insertSorted (x : String) : List String → List String
  | [] => [x]
  | y :: ys => if strLe x y then x :: y :: ys else y :: insertSorted x ys

/-- Python's `sorted` on strings (insertion sort; the order is total, so this
agrees with any stable sort). -/
def sortStrings : List String → List String
  | [] => []
  | x :: xs => insertSorted x (sortStrings xs)

/-- `UniqueIdentifier.__create_identifier` (`core/entities.py` lines 120-129):
lowercase, keep only `string.printable` characters, replace punctuation with
spaces, split on whitespace, sort the segments, rejoin with underscores.  The
application layer's `NormalizedName` performs the same normalization. -/
def normalizeName (object_name : String) : String :=
  let lowered := object_name.toList.map Char.toLower
  let kept := lowered.filter pyPrintable
  let replaced := kept.map fun c => if pyPunct c then ' ' else c
  String.intercalate "_" (sortStrings (splitWs replaced))

/-! ## The legacy core Summit (`trad/core/entities.py`, class Summit) -/

/-- The merge-conflict data of `MergeConflictError` (`kernel/errors.py` lines
29-51): object type, object name, conflicting attribute. -/
structure MergeConflictE where
  object_type : String
  object_name : String
  conflicting_attribute : String
deriving DecidableEq, Repr

/-- Pythonic truthiness of the optional name strings: `None` and the empty
string are falsy. -/
def nameTruthy : Option String → Bool
  | none => false
  | some s => !(s == "")

/-- `Summit` of `trad/core/entities.py` (lines 143-259): the legacy entity with
a single `position` field. -/
structure CoreSummit where
  official_name : Option String := none
  alternate_names : List String := []
  unspecified_names : List String := []
  position : PosRef := none
deriving DecidableEq, Repr

namespace CoreSummit

/-- `Summit.name` (`core/entities.py` lines 181-198): the first available name,
searching official, alternate, unspecified in that order. -/
def name (s : CoreSummit) : String :=
  match s.official_name with
  | some n => if n = "" then (s.alternate_names.head?.getD (s.unspecified_names.head?.getD "")) else n
  | none => s.alternate_names.head?.getD (s.unspecified_names.head?.getD "")

/-- `Summit._enrich_position` (`core/entities.py` lines 255-259): if this
summit's position is the UNDEFINED singleton, adopt the other's; otherwise
raise `MergeConflictError("summit", other.name, "position")` whenever the
other's position is not the UNDEFINED singleton.  `GeoPosition` defines no
`__eq__`, so the `==` / `!=` checks against the singleton are object identity
(the `Option` layer). -/
def enrichPosition (self other : CoreSummit) : Except MergeConflictE CoreSummit :=
  if self.position.isNone then
    Except.ok { self with position := other.position }
  else if !other.position.isNone then
    Except.error ⟨"summit", other.name, "position"⟩
  else
    Except.ok self

/-- `Summit._enrich_official_name` (`core/entities.py` lines 229-239). -/
def enrichOfficialName (self other : CoreSummit) : Except MergeConflictE CoreSummit :=
  if !nameTruthy other.official_name then
    Except.ok self
  else if !nameTruthy self.official_name then
    Except.ok { self with official_name := other.official_name }
  else if normalizeName (other.official_name.getD "") = normalizeName (self.official_name.getD "") then
    Except.ok self
  else
    Except.error ⟨"summit", other.name, "official name"⟩

/-- Deduplication preserving the first occurrence of each element, Python's
`list(dict.fromkeys(...))`. -/
def dedupFirstAux (seen : List String) : List String → List String
  | [] => []
  | x :: xs => if x ∈ seen then dedupFirstAux seen xs else x :: dedupFirstAux (x :: seen) xs

/-- `list(dict.fromkeys(l))`. -/
def dedupFirst (l : List String) : List String := dedupFirstAux [] l

/-- `Summit._enrich_alternate_names` (`core/entities.py` lines 241-247): union
keeping first occurrences, then drop the first occurrence of the official name
(`list.remove`, absence suppressed). -/
def enrichAlternateNames (self other : CoreSummit) : CoreSummit :=
  let merged :=
    if other.alternate_names.isEmpty then self.alternate_names
    else dedupFirst (self.alternate_names ++ other.alternate_names)
  let cleaned :=
    match self.official_name with
    | some n => if n = "" then merged else merged.erase n
    | none => merged
  { self with alternate_names := cleaned }

/-- `Summit._enrich_unspecified_names` (`core/entities.py` lines 249-253). -/
def enrichUnspecifiedNames (self other : CoreSummit) : CoreSummit :=
  if other.unspecified_names.isEmpty then self
  else { self with unspecified_names := dedupFirst (self.unspecified_names ++ other.unspecified_names) }

/-- `Summit.enrich` (`core/entities.py` lines 218-227) as a state transformer
on the two-object heap (self, other): every assignment the method performs
writes a field of `self`; on an exception the heap at the moment of the raise
is returned alongside the error.  The first component is the possibly modified
`self`, the second the `other` object. -/
def enrichPair (self other : CoreSummit) :
    Option MergeConflictE × CoreSummit × CoreSummit :=
  match enrichOfficialName self other with
  | Except.error e => (some e, self, other)
  | Except.ok s1 =>
    let s2 := enrichAlternateNames s1 other
    let s3 := enrichUnspecifiedNames s2 other
    match enrichPosition s3 other with
    | Except.error e => (some e, s3, other)
    | Except.ok s4 => (none, s4, other)

end CoreSummit

/-! ## The application-layer Summit (`trad.kernel.entities`).
The module itself is absent from the sources; only its callers (`merge.py`,
`validation.py`, the sink, the pipes) and its tests are present, so it is
modelled from the spec (section 3 and 4.3) as exercised by those callers. -/

/-- Modelled from the spec: `Summit` of the missing `trad.kernel.entities`
module — official, alternate and unspecified names plus the two position
fields `high_grade_position` and `low_grade_position` (spec section 3). -/
structure Summit where
  official_name : Option String := none
  alternate_names : List String := []
  unspecified_names : List String := []
  high_grade_position : PosRef := none
  low_grade_position : PosRef := none
deriving DecidableEq, Repr

namespace Summit

/-- Modelled from the spec: `Summit.name`, "official > first alternate > first
unspecified" (spec section 3). -/
def name (s : Summit) : String :=
  match s.official_name with
  | some n => if n = "" then (s.alternate_names.head?.getD (s.unspecified_names.head?.getD "")) else n
  | none => s.alternate_names.head?.getD (s.unspecified_names.head?.getD "")

/-- All stored surface names: the official name (when set) followed by the
alternate and unspecified names. -/
def allNames (s : Summit) : List String :=
  (if nameTruthy s.official_name then [s.official_name.getD ""] else []) ++
    s.alternate_names ++ s.unspecified_names

/-- Modelled from the spec: `Summit.get_all_normalized_names` — the
NormalizedNames of every stored name across the three name fields (spec
section 3, "all possible identifiers"). -/
def allNormalizedNames (s : Summit) : List String :=
  s.allNames.map normalizeName

/-- Modelled from the spec: the `Summit.position` property used by the merge
predicate — the high-grade position when it is set, the low-grade position
otherwise (`test_entities.py::test_position`). -/
def position (s : Summit) : PosRef :=
  s.high_grade_position <|> s.low_grade_position

/-- Modelled from the spec: enrichment of one position field, "filled if
currently UNDEFINED; if both sides have a value and the values are unequal,
MergeConflict(summit, name, position)" (spec section 4.3). `none` signals the
conflict. -/
def enrichPosField (slf oth : PosRef) : Option PosRef :=
  match slf, oth with
  | none, o => some o
  | some p, none => some (some p)
  | some p, some q => if p = q then some (some p) else none

/-- Modelled from the spec: the official-name enrichment rule — adopt when the
incumbent is empty, keep when the NormalizedNames agree, conflict otherwise
(spec section 4.3). -/
def enrichOfficialName (self other : Summit) : Except MergeConflictE Summit :=
  if !nameTruthy other.official_name then
    Except.ok self
  else if !nameTruthy self.official_name then
    Except.ok { self with official_name := other.official_name }
  else if normalizeName (other.official_name.getD "") = normalizeName (self.official_name.getD "") then
    Except.ok self
  else
    Except.error ⟨"summit", other.name, "official name"⟩

/-- Modelled from the spec: alternate-name union preserving the incumbent's
insertion order, then dropping the official name (spec section 4.3). -/
def enrichAlternateNames (self other : Summit) : Summit :=
  let merged :=
    if other.alternate_names.isEmpty then self.alternate_names
    else CoreSummit.dedupFirst (self.alternate_names ++ other.alternate_names)
  let cleaned :=
    match self.official_name with
    | some n => if n = "" then merged else merged.erase n
    | none => merged
  { self with alternate_names := cleaned }

/-- Modelled from the spec: unspecified-name union preserving order (spec
section 4.3). -/
def enrichUnspecifiedNames (self other : Summit) : Summit :=
  if other.unspecified_names.isEmpty then self
  else { self with unspecified_names := CoreSummit.dedupFirst (self.unspecified_names ++ other.unspecified_names) }

/-- Modelled from the spec: `Summit.enrich` of the missing
`trad.kernel.entities` — official name, alternate names, unspecified names,
then the two position fields (spec section 4.3). -/
def enrich (self other : Summit) : Except MergeConflictE Summit :=
  match enrichOfficialName self other with
  | Except.error e => Except.error e
  | Except.ok s1 =>
    let s3 := enrichUnspecifiedNames (enrichAlternateNames s1 other) other
    match enrichPosField s3.high_grade_position other.high_grade_position with
    | none => Except.error ⟨"summit", other.name, "position"⟩
    | some hi =>
      match enrichPosField s3.low_grade_position other.low_grade_position with
      | none => Except.error ⟨"summit", other.name, "position"⟩
      | some lo => Except.ok { s3 with high_grade_position := hi, low_grade_position := lo }

end Summit

/-! ## Routes and posts (`trad.kernel.entities`, fixed by the dataclasses of
`trad/core/entities.py` lines 262-351) -/

/-- `NO_GRADE` (`core/entities.py` line 13). -/
def NO_GRADE : Nat := 0

/-- The `Route` dataclass: name, legacy grade string, the four numeric grades,
star count and danger flag. -/
structure RouteE where
  route_name : String
  grade : String
  grade_af : Nat := NO_GRADE
  grade_rp : Nat := NO_GRADE
  grade_ou : Nat := NO_GRADE
  grade_jump : Nat := NO_GRADE
  star_count : Nat := 0
  dangerous : Bool := false
deriving DecidableEq, Repr

/-- The `Post` dataclass: author, publication instant (kept abstract as its
ISO string), comment and rating. -/
structure PostE where
  user_name : String
  post_date : String
  comment : String
  rating : Int
deriving DecidableEq, Repr

/-! ## The merge filter (`trad/application/filters/regular/merge.py`) -/

/-- `_RouteRelatedData` (`merge.py` lines 93-102): a route together with its
posts. -/
structure RouteRelatedData where
  route : RouteE
  posts : List PostE
deriving DecidableEq, Repr

/-- `_SummitRelatedData` (`merge.py` lines 81-90): a summit together with its
routes. -/
structure SummitRelatedData where
  summit : Summit
  routes : List RouteRelatedData
deriving DecidableEq, Repr

/-- Locate the first element satisfying `p`, returning the prefix before it
(all failing `p`), the element, and the suffix after it. -/
def splitFirst (p : α → Bool) : List α → Option (List α × α × List α)
  | [] => none
  | x :: xs =>
    if p x then some ([], x, xs)
    else (splitFirst p xs).map fun r => (x :: r.1, r.2.1, r.2.2)

/-- `_EntityMerger.merge_entity` (`merge.py` lines 121-150): collect every
stored entity matching the new one, fold them and then the new entity into the
first match (or start from the new entity when nothing matches), drop the
subsumed entries and keep the target in place (appending it when it is new). -/
def mergeEntity (isSame : α → α → Bool) (mergeObjects : α → α → Except MergeConflictE α)
    (target_entities : List α) (new_entity : α) : Except MergeConflictE (List α) :=
  match splitFirst (fun e => isSame e new_entity) target_entities with
  | none => Except.ok (target_entities ++ [new_entity])
  | some (pre, c, suf) => do
    let t ← (suf.filter (fun e => isSame e new_entity) ++ [new_entity]).foldlM mergeObjects c
    Except.ok (pre ++ t :: suf.filter (fun e => !isSame e new_entity))

/-- The grade tuple of `_RouteMerger._merge_objects` (`merge.py` lines
252-267): af, ou, rp, jump grades, danger flag, star count. -/
def gradeTuple (r : RouteE) : Nat × Nat × Nat × Nat × Bool × Nat :=
  (r.grade_af, r.grade_ou, r.grade_rp, r.grade_jump, r.dangerous, r.star_count)

/-- The "missing" grade tuple (`merge.py` line 268). -/
def missingGrade : Nat × Nat × Nat × Nat × Bool × Nat :=
  (NO_GRADE, NO_GRADE, NO_GRADE, NO_GRADE, false, 0)

/-- `_RouteMerger._is_same` (`merge.py` lines 238-240): byte-wise equality of
the route names. -/
def routeIsSame (existing_entity new_entity : RouteRelatedData) : Bool :=
  existing_entity.route.route_name == new_entity.route.route_name

/-- `_RouteMerger._merge_objects` (`merge.py` lines 242-281): adopt the
incoming grade tuple when the incumbent's is missing, keep the incumbent when
the incoming tuple is missing or equal, conflict otherwise; afterwards append
all incoming posts. -/
def routeMergeObjects (target_entity source_entity : RouteRelatedData) :
    Except MergeConflictE RouteRelatedData :=
  let tr := target_entity.route
  let sr := source_entity.route
  if gradeTuple tr = missingGrade then
    Except.ok ⟨{ tr with
        grade_af := sr.grade_af
        grade_ou := sr.grade_ou
        grade_rp := sr.grade_rp
        grade_jump := sr.grade_jump
        dangerous := sr.dangerous
        star_count := sr.star_count },
      target_entity.posts ++ source_entity.posts⟩
  else if gradeTuple sr ≠ missingGrade ∧ gradeTuple sr ≠ gradeTuple tr then
    Except.error ⟨"route", sr.route_name, "grade"⟩
  else
    Except.ok ⟨tr, target_entity.posts ++ source_entity.posts⟩

/-- Squaring on the integers, spelled out so that every arithmetic step of the
distance model reduces in the kernel. -/
def sqZ (x : Int) : Int := x * x

/-- Modelled from the spec: `GeoPosition.is_within_radius` of the missing
`trad.kernel.entities` module.  The spec prescribes the great-circle
(haversine) distance of the decimal-degree reconstructions; since real
trigonometry is not computable we model the distance with the standard
equirectangular approximation in exact integer arithmetic.  One coordinate
unit is 10^-7 degree, i.e. 1/90 meter of arc; the longitude difference is
scaled by the degree-6 Taylor cosine of the mean latitude (in radians, with pi
as 314159265358979/10^14), and all denominators are cleared: with the cosine
written as `cn / cd`, the squared distance bound
`(dLat/90)^2 + (cn/cd * dLon/90)^2 <= meters^2` becomes the integer comparison
below.  At the margins the spec's scenarios exercise — points 100 km apart
versus the 200 m radius, and the meter-scale cases of
`test_entities.py::test_is_within_radius` — this agrees with haversine. -/
def isWithinRadiusZ (p q : GeoPos) (meters : Int) : Bool :=
  let a : Int := (p.lat + q.lat) * 314159265358979
  let b : Int := 2 * 10000000 * 180 * 100000000000000
  let a2 := sqZ a
  let a4 := sqZ a2
  let b2 := sqZ b
  let b4 := sqZ b2
  let cn : Int := 720 * (b4 * b2) - 360 * (b4 * a2) + 30 * (b2 * a4) - a4 * a2
  let cd : Int := 720 * (b4 * b2)
  decide (sqZ ((p.lat - q.lat) * cd) + sqZ (cn * (p.lon - q.lon)) ≤ sqZ (90 * meters * cd))

/-- The position match of the summit merger: `is_within_radius` at the search
radius `_SummitMerger._match_search_radius = 200` meters (`merge.py` lines
173-177). -/
def isWithinRadius200 (p q : GeoPos) : Bool := isWithinRadiusZ p q 200

/-- True when the two normalized-name lists share an element
(`set.intersection` followed by `bool`). -/
def hasCommon (xs ys : List String) : Bool :=
  xs.any fun x => ys.contains x

/-- The position part of `_SummitMerger._is_same` (`merge.py` lines 198-207):
either side carries the UNDEFINED singleton, or the positions are within the
search radius (the `wr` parameter stands for
`is_within_radius(·, ·, _match_search_radius)` of the missing
`trad.kernel.entities`). -/
def posCompat (wr : GeoPos → GeoPos → Bool) (a b : PosRef) : Bool :=
  match a, b with
  | some p, some q => wr p q
  | _, _ => true

/-- `_SummitMerger._is_same` (`merge.py` lines 190-208): the normalized-name
sets intersect and the positions are compatible. -/
def summitIsSame (wr : GeoPos → GeoPos → Bool)
    (existing_entity new_entity : SummitRelatedData) : Bool :=
  hasCommon new_entity.summit.allNormalizedNames existing_entity.summit.allNormalizedNames &&
    posCompat wr existing_entity.summit.position new_entity.summit.position

/-- `_SummitMerger._merge_objects` (`merge.py` lines 220-230): enrich the
target summit, then merge every incoming route (with its posts) into the
target's route list. -/
def summitMergeObjects (target_entity source_entity : SummitRelatedData) :
    Except MergeConflictE SummitRelatedData :=
  match target_entity.summit.enrich source_entity.summit with
  | Except.error e => Except.error e
  | Except.ok s =>
    match source_entity.routes.foldlM (mergeEntity routeIsSame routeMergeObjects)
        target_entity.routes with
    | Except.error e => Except.error e
    | Except.ok rs => Except.ok ⟨s, rs⟩

/-- `MergeFilter.execute_filter` (`merge.py` lines 43-55) on the summit data
already grouped with routes and posts: merge each incoming summit into the
canonical list, starting from the empty list a fresh `MergeFilter` holds. -/
def mergeSummitData (wr : GeoPos → GeoPos → Bool)
    (input : List SummitRelatedData) : Except MergeConflictE (List SummitRelatedData) :=
  input.foldlM (mergeEntity (summitIsSame wr) summitMergeObjects) []

/-! ## The Pipe implementation (`trad/application/pipes.py`, class CollectedData) -/

/-- Fallback entities for total modelling of Python's list indexing (the
indices stored in the id maps always hit, so these are never produced). -/
def dummyRoute : RouteE := ⟨"", "", 0, 0, 0, 0, 0, false⟩

/-- Fallback post, see `dummyRoute`. -/
def dummyPost : PostE := ⟨"", "", "", 0⟩

/-- `CollectedData` (`application/pipes.py` lines 13-65): the default Pipe
implementation — entity lists plus the id maps `_routes2summits` and
`_posts2routes` (dicts of lists, modelled as total maps defaulting to the
empty list, matching `dict.get(key, [])` / `setdefault`). -/
structure CollectedData where
  summits : List Summit := []
  routes : List RouteE := []
  posts : List PostE := []
  routes2summits : Nat → List Nat := fun _ => []
  posts2routes : Nat → List Nat := fun _ => []

/-- The empty Pipe a `PipeFactory.create_pipe()` call returns. -/
def emptyPipe : CollectedData := {}

namespace CollectedData

/-- `CollectedData.add_summit` (lines 27-30): append and hand out the index of
the new summit. -/
def add_summit (d : CollectedData) (s : Summit) : CollectedData × Nat :=
  ({ d with summits := d.summits ++ [s] }, d.summits.length)

/-- `CollectedData.add_route` (lines 32-40): validate the parent summit id,
append the route, hand out its index and record it under the summit id. -/
def add_route (d : CollectedData) (summit_id : Nat) (r : RouteE) :
    Except String (CollectedData × Nat) :=
  if summit_id < d.summits.length then
    Except.ok ({ d with
      routes := d.routes ++ [r]
      routes2summits := fun k =>
        if k = summit_id then d.routes2summits k ++ [d.routes.length]
        else d.routes2summits k }, d.routes.length)
  else
    Except.error ("Summit #" ++ toString summit_id)

/-- `CollectedData.add_post` (lines 42-49): validate the parent route id,
append the post and record its index under the route id. -/
def add_post (d : CollectedData) (route_id : Nat) (p : PostE) :
    Except String CollectedData :=
  if route_id < d.routes.length then
    Except.ok { d with
      posts := d.posts ++ [p]
      posts2routes := fun k =>
        if k = route_id then d.posts2routes k ++ [d.posts.length]
        else d.posts2routes k }
  else
    Except.error ("Route #" ++ toString route_id)

/-- `CollectedData.iter_summits` (lines 51-53): all summits with their ids, in
insertion order. -/
def iter_summits (d : CollectedData) : List (Nat × Summit) :=
  d.summits.enum

/-- `CollectedData.iter_routes_of_summit` (lines 55-60): the recorded route ids
of the summit, each with the stored route. -/
def iter_routes_of_summit (d : CollectedData) (summit_id : Nat) : List (Nat × RouteE) :=
  (d.routes2summits summit_id).map fun i => (i, d.routes.getD i dummyRoute)

/-- `CollectedData.iter_posts_of_route` (lines 62-65). -/
def iter_posts_of_route (d : CollectedData) (route_id : Nat) : List PostE :=
  (d.posts2routes route_id).map fun i => d.posts.getD i dummyPost

end CollectedData

/-- Well-formedness of a Pipe: every route index recorded in the id maps
points into the route list, and likewise for posts.  Every pipe built through
the add operations satisfies this. -/
def PipeWf (d : CollectedData) : Prop :=
  (∀ k i, i ∈ d.routes2summits k → i < d.routes.length) ∧
    (∀ k i, i ∈ d.posts2routes k → i < d.posts.length)

/-! ## The validation filter (`trad/application/filters/regular/validation.py`) -/

/-- The route-validation loop of `DataValidationFilter.execute_filter` (lines
44-49): run `fix_invalid_data` (the `fixR` parameter returns `none` when it
raises IncompleteDataError) on each route; on the first failure the whole
summit is abandoned, otherwise the fixed routes are collected together with the
posts of each route. -/
def validateRoutes (fixR : RouteE → Option RouteE) (input : CollectedData) :
    List (Nat × RouteE) → Option (List (RouteE × List PostE))
  | [] => some []
  | rr :: rest =>
    match fixR rr.2 with
    | none => none
    | some r2 =>
      (validateRoutes fixR input rest).map fun acc =>
        (r2, input.iter_posts_of_route rr.1) :: acc

/-- Append the given posts to a route of the output pipe
(`_write_summit_to_pipe`, inner loop of lines 93-96). -/
def addPosts (o : CollectedData) (orid : Nat) : List PostE → Except String CollectedData
  | [] => Except.ok o
  | p :: ps =>
    match o.add_post orid p with
    | Except.error e => Except.error e
    | Except.ok o2 => addPosts o2 orid ps

/-- Write the validated routes (each with its posts) under the given output
summit id (`_write_summit_to_pipe`, lines 93-96). -/
def addRoutesPosts (o : CollectedData) (osid : Nat) :
    List (RouteE × List PostE) → Except String CollectedData
  | [] => Except.ok o
  | rp :: rest =>
    match o.add_route osid rp.1 with
    | Except.error e => Except.error e
    | Except.ok (o2, orid) =>
      match addPosts o2 orid rp.2 with
      | Except.error e => Except.error e
      | Except.ok o3 => addRoutesPosts o3 osid rest

/-- `DataValidationFilter._write_summit_to_pipe` (lines 85-96): emit the summit,
then each route with its posts, preserving order. -/
def writeSummitToPipe (o : CollectedData) (s : Summit)
    (rps : List (RouteE × List PostE)) : Except String CollectedData :=
  let r := o.add_summit s
  addRoutesPosts r.1 r.2 rps

/-- The summit loop of `DataValidationFilter.execute_filter` (lines 36-55),
recursing over the input pipe's summit iteration: a summit whose own fixer or
any of whose routes' fixers fails (`none`, i.e. IncompleteDataError) is skipped
entirely; otherwise summit, routes and posts are re-emitted. -/
def validationGo (fixS : Summit → Option Summit) (fixR : RouteE → Option RouteE)
    (input : CollectedData) :
    List (Nat × Summit) → CollectedData → Except String CollectedData
  | [], o => Except.ok o
  | e :: rest, o =>
    match fixS e.2 with
    | none => validationGo fixS fixR input rest o
    | some s2 =>
      match validateRoutes fixR input (input.iter_routes_of_summit e.1) with
      | none => validationGo fixS fixR input rest o
      | some rps =>
        match writeSummitToPipe o s2 rps with
        | Except.error err => Except.error err
        | Except.ok o2 => validationGo fixS fixR input rest o2

/-- `DataValidationFilter.execute_filter` (lines 36-55). -/
def validationFilter (fixS : Summit → Option Summit) (fixR : RouteE → Option RouteE)
    (input output : CollectedData) : Except String CollectedData :=
  validationGo fixS fixR input input.iter_summits output

/-- The declarative description of what VALIDATE keeps: every input summit, in
insertion order, that its own fixer accepts and all of whose routes the route
fixer accepts, paired with its fixed routes and their posts in insertion
order. -/
def validatedSummits (fixS : Summit → Option Summit) (fixR : RouteE → Option RouteE)
    (input : CollectedData) : List (Summit × List (RouteE × List PostE)) :=
  input.iter_summits.filterMap fun e =>
    (fixS e.2).bind fun s2 =>
      ((input.iter_routes_of_summit e.1).mapM fun rr =>
        (fixR rr.2).map fun r2 => (r2, input.iter_posts_of_route rr.1)).map
        fun rps => (s2, rps)

/-! ## The relational sink (`trad/application/filters/sink/db_v1/__init__.py`,
with table and column names from the `dbschema` module) -/

/-- Python's `", ".join(...)`. -/
def joinCols (l : List String) : String := String.intercalate ", " l

/-- `DbSchemaV1Filter._get_value_placeholders` (lines 283-284). -/
def valuePlaceholders (value_count : Nat) : String :=
  String.intercalate ", " (List.replicate value_count "?")

/-- The metadata INSERT of `_write_metadata` (lines 92-117). -/
def metadataInsertSql : String :=
  "INSERT OR IGNORE INTO " ++ "database_metadata" ++ " (" ++
    joinCols ["schema_version_major", "schema_version_minor", "vendor", "compile_time"] ++
    ") VALUES (" ++ valuePlaceholders 4 ++ ")"

/-- The summits INSERT of `_write_to_summits_table` (lines 138-143): an upsert
whose UPDATE clause only rewrites rows holding the UNDEFINED position. -/
def summitsInsertSql : String :=
  "INSERT INTO " ++ "summits" ++ " (" ++ joinCols ["latitude", "longitude"] ++
    ") VALUES (" ++ valuePlaceholders 2 ++ ") ON CONFLICT DO UPDATE SET " ++
    joinCols ["latitude=excluded.latitude", "longitude=excluded.longitude"] ++
    " WHERE latitude=" ++ toString UNDEFINED_GEOPOSITION.lat ++
    " AND longitude=" ++ toString UNDEFINED_GEOPOSITION.lon

/-- The summit-names INSERT of `_write_to_summit_names_table` (lines 166-169):
a plain INSERT. -/
def summitNamesInsertSql : String :=
  "INSERT INTO " ++ "summit_names" ++ " (" ++ joinCols ["summit_id", "name", "usage"] ++
    ") VALUES (" ++ valuePlaceholders 3 ++ ")"

/-- The scalar subquery resolving a summit row id by official name (`_add_route`
lines 207-210 and `_add_post` lines 245-248). -/
def selectSummitSql : String :=
  "SELECT summit_id FROM summit_names WHERE name=? AND usage=0 LIMIT 1"

/-- The routes INSERT of `_add_route` (lines 225-228). -/
def routesInsertSql : String :=
  "INSERT OR IGNORE INTO " ++ "routes" ++ " (" ++
    joinCols ["summit_id", "route_name", "route_grade", "grade_af", "grade_rp", "grade_ou",
      "grade_jump", "stars", "danger"] ++
    ") VALUES ((" ++ selectSummitSql ++ "), " ++ valuePlaceholders 8 ++ ")"

/-- The route-id subquery of `_add_post` (lines 249-254). -/
def selectRouteSql : String :=
  "SELECT id FROM routes WHERE summit_id=(" ++ selectSummitSql ++ ") AND route_name=? LIMIT 1"

/-- The posts INSERT of `_add_post` (lines 266-269). -/
def postsInsertSql : String :=
  "INSERT OR IGNORE INTO " ++ "posts" ++ " (" ++
    joinCols ["route_id", "user_name", "comment", "post_date", "rating"] ++
    ") VALUES ((" ++ selectRouteSql ++ "), " ++ valuePlaceholders 4 ++ ")"

/-- One parameter row bound to `summitNamesInsertSql`. -/
structure SummitNameRow where
  summit_id : Int
  name : String
  usage : Nat
deriving DecidableEq, Repr

/-- `DbSchemaV1Filter._write_to_summit_names_table` (lines 157-204) as the list
of parameter rows it binds, together with the warning flag: when the summit has
a truthy official name, one row with usage 0 (official) for it and one row with
usage 1 (alternate) per alternate name; otherwise — with a warning logged — a
single usage-0 row carrying the derived `name`. -/
def writeToSummitNamesTable (summit_id : Int) (s : Summit) : List SummitNameRow × Bool :=
  if nameTruthy s.official_name then
    (⟨summit_id, s.official_name.getD "", 0⟩ ::
      s.alternate_names.map fun a => ⟨summit_id, a, 1⟩, false)
  else
    ([⟨summit_id, s.name, 0⟩], true)

/-! ## The pipeline engine (`trad/kernel/usecases.py` and
`trad/application/filters/factory.py`) -/

/-- A filter as the engine sees it: a name (`get_name`) and the effect of
`execute_filter` on the output pipe, given the input pipe. -/
structure FilterF where
  filter_name : String
  run : CollectedData → CollectedData → CollectedData

/-- One entry of the execution trace: the stage index, the executed filter's
name and the input pipe it was handed. -/
structure FilterEvent where
  stage : Nat
  filter_name : String
  input_pipe : CollectedData

/-- `ScraperUseCases.__run_filters_of_stage` (`usecases.py` lines 45-61): run
the stage's filters sequentially on the shared pipes, recording the trace. -/
def runStage (stage_index : Nat) (stage_filters : List FilterF)
    (input_pipe output_pipe : CollectedData) : CollectedData × List FilterEvent :=
  stage_filters.foldl
    (fun acc f => (f.run input_pipe acc.1, acc.2 ++ [⟨stage_index, f.filter_name, input_pipe⟩]))
    (output_pipe, [])

/-- `ScraperUseCases.produce_routedb` (`usecases.py` lines 27-43): start from a
fresh pipe, and for each stage in order create a fresh output pipe, hand the
previous stage's pipe in as the input and run the stage's filters. -/
def produceRoutedb (stages : List (List FilterF)) : CollectedData × List FilterEvent :=
  stages.enum.foldl
    (fun acc st =>
      let r := runStage st.1 st.2 acc.1 emptyPipe
      (r.1, acc.2 ++ r.2))
    (emptyPipe, [])

/-- `AllFiltersFactory._stages` (`factory.py` lines 49-59): the two source
filters, then the merge filter, then the validation filter, then the database
sink. -/
def allFilterStages (osm teufelsturm mrg val wrt : FilterF) : List (List FilterF) :=
  [[osm, teufelsturm], [mrg], [val], [wrt]]

/-! ## Properties of the merge filter -/

/-- Two summit-data entries share a NormalizedName. -/
def sharesName (a b : SummitRelatedData) : Prop :=
  ∃ n, n ∈ a.summit.allNormalizedNames ∧ n ∈ b.summit.allNormalizedNames

/-- The entry carries a position other than the UNDEFINED singleton. -/
def posDefined (a : SummitRelatedData) : Prop :=
  a.summit.position.isSome = true

/-- The invariant the canonical set maintains: entries sharing a
NormalizedName both carry defined positions. -/
def mergeInv (L : List SummitRelatedData) : Prop :=
  L.Pairwise fun a b => sharesName a b → posDefined a ∧ posDefined b

/-- The relation maintained pairwise by the canonical set. -/
def invR (a b : SummitRelatedData) : Prop :=
  sharesName a b → posDefined a ∧ posDefined b

/-- Two observations of the same summit name 0.9 degree of latitude (about
100 km) apart, the situation of spec scenario 5. -/
def summitNamesakeA : SummitRelatedData :=
  ⟨⟨some "Name1", [], [], some ⟨500000000, 140000000⟩, none⟩, []⟩

/-- The second far-away namesake observation. -/
def summitNamesakeB : SummitRelatedData :=
  ⟨⟨some "Name1", [], [], some ⟨509000000, 140000000⟩, none⟩, []⟩

theorem sharesName_symm {a b : SummitRelatedData} (h : sharesName a b) : sharesName b a := by
  obtain ⟨n, h1, h2⟩ := h
  exact ⟨n, h2, h1⟩

theorem hasCommon_iff {xs ys : List String} :
    hasCommon xs ys = true ↔ ∃ n, n ∈ xs ∧ n ∈ ys := by
  simp [hasCommon, List.any_eq_true]

theorem mem_dedupFirstAux {x : String} {seen l : List String}
    (h : x ∈ CoreSummit.dedupFirstAux seen l) : x ∈ l := by
  induction l generalizing seen with
  | nil => simp [CoreSummit.dedupFirstAux] at h
  | cons y ys ih =>
    rw [CoreSummit.dedupFirstAux] at h
    split at h
    · exact List.mem_cons_of_mem _ (ih h)
    · rcases List.mem_cons.mp h with h | h
      · exact h ▸ List.mem_cons_self _ _
      · exact List.mem_cons_of_mem _ (ih h)

theorem mem_dedupFirst {x : String} {l : List String}
    (h : x ∈ CoreSummit.dedupFirst l) : x ∈ l :=
  mem_dedupFirstAux h

theorem enrichOfficialName_ok {t s u : Summit}
    (h : Summit.enrichOfficialName t s = Except.ok u) :
    (u.official_name = t.official_name ∨ u.official_name = s.official_name) ∧
      u.alternate_names = t.alternate_names ∧
      u.unspecified_names = t.unspecified_names ∧
      u.high_grade_position = t.high_grade_position ∧
      u.low_grade_position = t.low_grade_position := by
  unfold Summit.enrichOfficialName at h
  split_ifs at h <;> cases h <;> simp

theorem enrichAlternateNames_fields (t s : Summit) :
    (Summit.enrichAlternateNames t s).official_name = t.official_name ∧
      (Summit.enrichAlternateNames t s).unspecified_names = t.unspecified_names ∧
      (Summit.enrichAlternateNames t s).high_grade_position = t.high_grade_position ∧
      (Summit.enrichAlternateNames t s).low_grade_position = t.low_grade_position := by
  unfold Summit.enrichAlternateNames
  simp

theorem mem_enrichAlternateNames {t s : Summit} {x : String}
    (hx : x ∈ (Summit.enrichAlternateNames t s).alternate_names) :
    x ∈ t.alternate_names ∨ x ∈ s.alternate_names := by
  unfold Summit.enrichAlternateNames at hx
  dsimp at hx
  have hmerged : ∀ y : String,
      (y ∈ if s.alternate_names.isEmpty then t.alternate_names
        else CoreSummit.dedupFirst (t.alternate_names ++ s.alternate_names)) →
      y ∈ t.alternate_names ∨ y ∈ s.alternate_names := by
    intro y hy
    split at hy
    · exact Or.inl hy
    · exact List.mem_append.mp (mem_dedupFirst hy)
  rcases ho : t.official_name with _ | n
  · rw [ho] at hx
    exact hmerged _ hx
  · rw [ho] at hx
    dsimp at hx
    split at hx
    · exact hmerged _ hx
    · exact hmerged _ (List.mem_of_mem_erase hx)

theorem enrichUnspecifiedNames_fields (t s : Summit) :
    (Summit.enrichUnspecifiedNames t s).official_name = t.official_name ∧
      (Summit.enrichUnspecifiedNames t s).alternate_names = t.alternate_names ∧
      (Summit.enrichUnspecifiedNames t s).high_grade_position = t.high_grade_position ∧
      (Summit.enrichUnspecifiedNames t s).low_grade_position = t.low_grade_position := by
  unfold Summit.enrichUnspecifiedNames
  split <;> simp

theorem mem_enrichUnspecifiedNames {t s : Summit} {x : String}
    (hx : x ∈ (Summit.enrichUnspecifiedNames t s).unspecified_names) :
    x ∈ t.unspecified_names ∨ x ∈ s.unspecified_names := by
  unfold Summit.enrichUnspecifiedNames at hx
  split at hx
  · exact Or.inl hx
  · exact List.mem_append.mp (mem_dedupFirst hx)

theorem enrichPosField_ok {a b r : PosRef} (h : Summit.enrichPosField a b = some r) :
    r = a.orElse fun _ => b := by
  rcases a with _ | p
  · simp [Summit.enrichPosField] at h
    simp [Option.orElse, ← h]
  · rcases b with _ | q
    · simp [Summit.enrichPosField] at h
      simp [Option.orElse, ← h]
    · by_cases hpq : p = q
      · simp [Summit.enrichPosField, hpq] at h
        simp [Option.orElse, ← h, hpq]
      · simp [Summit.enrichPosField, hpq] at h

theorem enrich_ok_fields {t s u : Summit} (h : t.enrich s = Except.ok u) :
    ∃ s1, Summit.enrichOfficialName t s = Except.ok s1 ∧
      u.official_name = s1.official_name ∧
      u.alternate_names =
        (Summit.enrichAlternateNames s1 s).alternate_names ∧
      u.unspecified_names =
        (Summit.enrichUnspecifiedNames (Summit.enrichAlternateNames s1 s) s).unspecified_names ∧
      u.high_grade_position = (t.high_grade_position.orElse fun _ => s.high_grade_position) ∧
      u.low_grade_position = (t.low_grade_position.orElse fun _ => s.low_grade_position) := by
  unfold Summit.enrich at h
  cases he : Summit.enrichOfficialName t s with
  | error e => rw [he] at h; exact absurd h (by simp)
  | ok s1 =>
    rw [he] at h
    dsimp at h
    refine ⟨s1, rfl, ?_⟩
    cases hhi : Summit.enrichPosField
        (Summit.enrichUnspecifiedNames (Summit.enrichAlternateNames s1 s) s).high_grade_position
        s.high_grade_position with
    | none => rw [hhi] at h; exact absurd h (by simp)
    | some hi =>
      rw [hhi] at h
      cases hlo : Summit.enrichPosField
          (Summit.enrichUnspecifiedNames (Summit.enrichAlternateNames s1 s) s).low_grade_position
          s.low_grade_position with
      | none => rw [hlo] at h; exact absurd h (by simp)
      | some lo =>
        rw [hlo] at h
        cases h
        have hu := enrichUnspecifiedNames_fields (Summit.enrichAlternateNames s1 s) s
        have ha := enrichAlternateNames_fields s1 s
        have ho := enrichOfficialName_ok he
        have hhi2 := enrichPosField_ok hhi
        have hlo2 := enrichPosField_ok hlo
        refine ⟨?_, ?_, ?_, ?_, ?_⟩
        · exact hu.1.trans ha.1
        · exact hu.2.1
        · rfl
        · rw [hhi2, hu.2.2.1, ha.2.2.1, ho.2.2.2.1]
        · rw [hlo2, hu.2.2.2, ha.2.2.2, ho.2.2.2.2]

theorem enrich_ok_mem_allNames {t s u : Summit} (h : t.enrich s = Except.ok u)
    {n : String} (hn : n ∈ u.allNames) : n ∈ t.allNames ∨ n ∈ s.allNames := by
  obtain ⟨s1, he, ho, ha, hu2, _, _⟩ := enrich_ok_fields h
  have hofull := enrichOfficialName_ok he
  rw [Summit.allNames, List.mem_append, List.mem_append] at hn
  rcases hn with (hn | hn) | hn
  · split at hn
    · next htru =>
      have hn2 : n = u.official_name.getD "" := by simpa using hn
      have hou : u.official_name = t.official_name ∨ u.official_name = s.official_name := by
        rw [ho]
        exact hofull.1
      rcases hou with h1 | h1
      · left
        rw [Summit.allNames, ← h1]
        simp [htru, hn2]
      · right
        rw [Summit.allNames, ← h1]
        simp [htru, hn2]
    · exact absurd hn (by simp)
  · rw [ha] at hn
    rcases mem_enrichAlternateNames hn with h1 | h1
    · left
      rw [hofull.2.1] at h1
      rw [Summit.allNames, List.mem_append, List.mem_append]
      exact Or.inl (Or.inr h1)
    · right
      rw [Summit.allNames, List.mem_append, List.mem_append]
      exact Or.inl (Or.inr h1)
  · rw [hu2] at hn
    rcases mem_enrichUnspecifiedNames hn with h1 | h1
    · left
      rw [(enrichAlternateNames_fields s1 s).2.1, hofull.2.2.1] at h1
      rw [Summit.allNames, List.mem_append]
      exact Or.inr h1
    · right
      rw [Summit.allNames, List.mem_append]
      exact Or.inr h1

theorem enrich_ok_mem_norm {t s u : Summit} (h : t.enrich s = Except.ok u)
    {n : String} (hn : n ∈ u.allNormalizedNames) :
    n ∈ t.allNormalizedNames ∨ n ∈ s.allNormalizedNames := by
  rw [Summit.allNormalizedNames, List.mem_map] at hn
  obtain ⟨m, hm, rfl⟩ := hn
  rcases enrich_ok_mem_allNames h hm with h1 | h1
  · exact Or.inl (List.mem_map_of_mem _ h1)
  · exact Or.inr (List.mem_map_of_mem _ h1)

theorem enrich_ok_pos {t s u : Summit} (h : t.enrich s = Except.ok u) :
    u.position.isSome = (t.position.isSome || s.position.isSome) := by
  obtain ⟨s1, he, ho, ha, hu2, hhi, hlo⟩ := enrich_ok_fields h
  rw [Summit.position, Summit.position, Summit.position, hhi, hlo]
  rcases t.high_grade_position with _ | p <;> rcases s.high_grade_position with _ | q <;>
    rcases t.low_grade_position with _ | v <;> rcases s.low_grade_position with _ | w <;>
    simp [Option.orElse]

theorem summitMergeObjects_ok_summit {t s u : SummitRelatedData}
    (h : summitMergeObjects t s = Except.ok u) :
    t.summit.enrich s.summit = Except.ok u.summit := by
  unfold summitMergeObjects at h
  cases he : t.summit.enrich s.summit with
  | error e => rw [he] at h; exact absurd h (by simp)
  | ok x =>
    rw [he] at h
    cases hr : s.routes.foldlM (mergeEntity routeIsSame routeMergeObjects) t.routes with
    | error e => rw [hr] at h; exact absurd h (by simp)
    | ok rs =>
      rw [hr] at h
      cases h
      rfl

theorem foldlM_mergeObjects_ok {l : List SummitRelatedData} {c t : SummitRelatedData}
    (h : l.foldlM summitMergeObjects c = Except.ok t) :
    (∀ n ∈ t.summit.allNormalizedNames,
        n ∈ c.summit.allNormalizedNames ∨ ∃ X ∈ l, n ∈ X.summit.allNormalizedNames) ∧
      t.summit.position.isSome =
        (c.summit.position.isSome || l.any fun X => X.summit.position.isSome) := by
  induction l generalizing c with
  | nil =>
    simp only [List.foldlM_nil] at h
    cases h
    simp
  | cons x xs ih =>
    rw [List.foldlM_cons] at h
    cases hx : summitMergeObjects c x with
    | error e => rw [hx] at h; exact absurd h (by simp [Bind.bind, Except.bind])
    | ok c2 =>
      rw [hx] at h
      have h2 : xs.foldlM summitMergeObjects c2 = Except.ok t := by
        simpa [Bind.bind, Except.bind] using h
      have henr := summitMergeObjects_ok_summit hx
      obtain ⟨ihn, ihp⟩ := ih h2
      constructor
      · intro n hn
        rcases ihn n hn with hn2 | ⟨X, hX, hnX⟩
        · rcases enrich_ok_mem_norm henr hn2 with h3 | h3
          · exact Or.inl h3
          · exact Or.inr ⟨x, List.mem_cons_self _ _, h3⟩
        · exact Or.inr ⟨X, List.mem_cons_of_mem _ hX, hnX⟩
      · rw [ihp, enrich_ok_pos henr]
        simp [Bool.or_assoc]

theorem splitFirst_eq_some {p : α → Bool} {L pre suf : List α} {c : α}
    (h : splitFirst p L = some (pre, c, suf)) :
    L = pre ++ c :: suf ∧ (∀ x ∈ pre, p x = false) ∧ p c = true := by
  induction L generalizing pre with
  | nil => simp [splitFirst] at h
  | cons y ys ih =>
    rw [splitFirst] at h
    split at h
    · next hy =>
      cases h
      exact ⟨rfl, by simp, hy⟩
    · next hy =>
      cases hs : splitFirst p ys with
      | none => rw [hs] at h; exact absurd h (by simp)
      | some r =>
        rw [hs] at h
        obtain ⟨r1, r2, r3⟩ := r
        cases h
        obtain ⟨ih1, ih2, ih3⟩ := ih hs
        refine ⟨by simp [ih1], ?_, ih3⟩
        intro x hx
        rcases List.mem_cons.mp hx with rfl | hx
        · exact Bool.eq_false_iff.mpr hy
        · exact ih2 x hx

theorem splitFirst_eq_none {p : α → Bool} {L : List α}
    (h : splitFirst p L = none) : ∀ x ∈ L, p x = false := by
  induction L with
  | nil => simp
  | cons y ys ih =>
    rw [splitFirst] at h
    split at h
    · exact absurd h (by simp)
    · next hy =>
      intro x hx
      rcases List.mem_cons.mp hx with rfl | hx
      · exact Bool.eq_false_iff.mpr hy
      · cases hs : splitFirst p ys with
        | none => exact ih hs x hx
        | some r => rw [hs] at h; exact absurd h (by simp)

theorem posCompat_false {wr : GeoPos → GeoPos → Bool} {a b : PosRef}
    (h : posCompat wr a b = false) : a.isSome = true ∧ b.isSome = true := by
  rcases a with _ | p <;> rcases b with _ | q <;> simp [posCompat] at h ⊢

theorem summitIsSame_false {wr : GeoPos → GeoPos → Bool} {e n : SummitRelatedData}
    (h : summitIsSame wr e n = false) (hs : sharesName e n) :
    posDefined e ∧ posDefined n := by
  rw [summitIsSame, Bool.and_eq_false_iff] at h
  rcases h with h | h
  · exfalso
    obtain ⟨m, h1, h2⟩ := hs
    exact absurd (hasCommon_iff.mpr ⟨m, h2, h1⟩) (by simp [h])
  · exact posCompat_false h

theorem invR_symm : Symmetric invR := by
  intro a b hab hba
  obtain ⟨h1, h2⟩ := hab (sharesName_symm hba)
  exact ⟨h2, h1⟩

theorem mergeInv_eq_pairwise (L : List SummitRelatedData) :
    mergeInv L ↔ L.Pairwise invR := Iff.rfl

theorem mergeEntity_preserves_inv {wr : GeoPos → GeoPos → Bool}
    {L L2 : List SummitRelatedData} {S : SummitRelatedData}
    (hInv : mergeInv L)
    (h : mergeEntity (summitIsSame wr) summitMergeObjects L S = Except.ok L2) :
    mergeInv L2 := by
  unfold mergeEntity at h
  cases hsp : splitFirst (fun e => summitIsSame wr e S) L with
  | none =>
    rw [hsp] at h
    cases h
    have hfalse := splitFirst_eq_none hsp
    rw [mergeInv, List.pairwise_append]
    refine ⟨hInv, by simp, ?_⟩
    intro a ha b hb
    rw [List.mem_singleton] at hb
    subst hb
    intro hshare
    exact summitIsSame_false (hfalse a ha) hshare
  | some r =>
    obtain ⟨pre, c, suf⟩ := r
    rw [hsp] at h
    dsimp only at h
    cases hf : (suf.filter (fun e => summitIsSame wr e S) ++ [S]).foldlM summitMergeObjects c with
    | error e => rw [hf] at h; exact absurd h (by simp [Bind.bind, Except.bind])
    | ok t =>
      rw [hf] at h
      have hL2 : L2 = pre ++ t :: suf.filter fun e => !summitIsSame wr e S := by
        have := h
        simp [Bind.bind, Except.bind] at this
        exact this.symm
      obtain ⟨hL, hpreF, hcT⟩ := splitFirst_eq_some hsp
      subst hL
      obtain ⟨names_f, pos_f⟩ := foldlM_mergeObjects_ok hf
      have Rall := (mergeInv_eq_pairwise _).mp hInv |>.forall invR_symm
      have hcmem : c ∈ pre ++ c :: suf := by simp
      -- the key fact: every survivor is invR-related to the merged target
      have hRt : ∀ a : SummitRelatedData,
          (a ∈ pre ∨ a ∈ suf.filter fun e => !summitIsSame wr e S) → invR a t := by
        intro a ha hshare
        have haF : summitIsSame wr a S = false := by
          rcases ha with ha | ha
          · exact hpreF a ha
          · have := List.of_mem_filter ha
            simpa using this
        have haL : a ∈ pre ++ c :: suf := by
          rcases ha with ha | ha
          · exact List.mem_append_left _ ha
          · exact List.mem_append_right _ (List.mem_cons_of_mem _ (List.mem_of_mem_filter ha))
        obtain ⟨n, hna, hnt⟩ := hshare
        have hpos_of : ∀ X : SummitRelatedData,
            X ∈ suf.filter (fun e => summitIsSame wr e S) ++ [S] →
            posDefined X → posDefined t := by
          intro X hX hXp
          rw [posDefined, pos_f, Bool.or_eq_true]
          exact Or.inr (List.any_eq_true.mpr ⟨X, hX, hXp⟩)
        rcases names_f n hnt with hnc | ⟨X, hX, hnX⟩
        · have hac : a ≠ c := by
            intro heq
            rw [heq, hcT] at haF
            exact Bool.noConfusion haF
          have hRac := Rall haL hcmem hac ⟨n, hna, hnc⟩
          refine ⟨hRac.1, ?_⟩
          rw [posDefined, pos_f, Bool.or_eq_true]
          exact Or.inl hRac.2
        · rcases List.mem_append.mp hX with hXf | hXS
          · have hXT : summitIsSame wr X S = true := by
              have := List.of_mem_filter hXf
              simpa using this
            have haX : a ≠ X := by
              intro heq
              rw [heq, hXT] at haF
              exact Bool.noConfusion haF
            have hXL : X ∈ pre ++ c :: suf :=
              List.mem_append_right _ (List.mem_cons_of_mem _ (List.mem_of_mem_filter hXf))
            have hRaX := Rall haL hXL haX ⟨n, hna, hnX⟩
            exact ⟨hRaX.1, hpos_of X hX hRaX.2⟩
          · rw [List.mem_singleton] at hXS
            subst hXS
            have := summitIsSame_false haF ⟨n, hna, hnX⟩
            refine ⟨this.1, hpos_of X hX this.2⟩
      -- reassemble the pairwise invariant for the new list
      rw [mergeInv, List.pairwise_append] at hInv
      obtain ⟨hpre_pw, hcs_pw, hcross⟩ := hInv
      rw [List.pairwise_cons] at hcs_pw
      obtain ⟨hcsuf, hsuf_pw⟩ := hcs_pw
      rw [hL2, mergeInv, List.pairwise_append]
      refine ⟨hpre_pw, ?_, ?_⟩
      · rw [List.pairwise_cons]
        constructor
        · intro b hb
          exact invR_symm (hRt b (Or.inr hb))
        · exact hsuf_pw.sublist (List.filter_sublist _)
      · intro a ha b hb
        rcases List.mem_cons.mp hb with rfl | hb2
        · exact hRt a (Or.inl ha)
        · exact hcross a ha b (List.mem_cons_of_mem _ (List.mem_of_mem_filter hb2))

theorem mergeSummitData_inv {wr : GeoPos → GeoPos → Bool}
    {input out : List SummitRelatedData}
    (h : mergeSummitData wr input = Except.ok out) : mergeInv out := by
  rw [mergeSummitData] at h
  suffices hgen : ∀ (L : List SummitRelatedData), mergeInv L →
      input.foldlM (mergeEntity (summitIsSame wr) summitMergeObjects) L = Except.ok out →
      mergeInv out by
    exact hgen [] (by simp [mergeInv]) h
  clear h
  induction input with
  | nil =>
    intro L hL h
    rw [List.foldlM_nil] at h
    cases h
    exact hL
  | cons x xs ih =>
    intro L hL h
    rw [List.foldlM_cons] at h
    cases hx : mergeEntity (summitIsSame wr) summitMergeObjects L x with
    | error e => rw [hx] at h; exact absurd h (by simp [Bind.bind, Except.bind])
    | ok L2 =>
      rw [hx] at h
      have h2 : xs.foldlM (mergeEntity (summitIsSame wr) summitMergeObjects) L2 = Except.ok out := by
        simpa [Bind.bind, Except.bind] using h
      exact ih L2 (mergeEntity_preserves_inv hL hx) h2

/-- C1, counterexample: after the MERGE stage the canonical set can contain two
distinct canonical summits sharing the NormalizedName "name1" — two summits
named "Name1" about 100 km apart are not merged (they fail the 200 m position
match), so their NormalizedName sets are not disjoint. -/
theorem C1_counterexample :
    mergeSummitData isWithinRadius200 [summitNamesakeA, summitNamesakeB] =
      Except.ok [summitNamesakeA, summitNamesakeB] ∧
    summitNamesakeA ≠ summitNamesakeB ∧
    "name1" ∈ summitNamesakeA.summit.allNormalizedNames ∧
    "name1" ∈ summitNamesakeB.summit.allNormalizedNames := by
  refine ⟨by decide, by decide, by decide, by decide⟩

/-- C1 (amended): when the MERGE stage completes successfully, any two distinct
canonical summits in the merger's output that share a NormalizedName both carry
a defined (non-UNDEFINED) position; name sets need not be disjoint, but summits
sharing a name are kept apart only on the strength of their (defined)
positions. -/
theorem C1_amended {wr : GeoPos → GeoPos → Bool} {input out : List SummitRelatedData}
    (h : mergeSummitData wr input = Except.ok out) :
    out.Pairwise fun a b => sharesName a b → posDefined a ∧ posDefined b :=
  mergeSummitData_inv h

/-- C1, witness: the amended statement applied to the concrete two-summit
merge run of the counterexample input. -/
theorem C1_amended_witness :
    mergeSummitData isWithinRadius200 [summitNamesakeA, summitNamesakeB] =
      Except.ok [summitNamesakeA, summitNamesakeB] ∧
    List.Pairwise (fun a b => sharesName a b → posDefined a ∧ posDefined b)
      [summitNamesakeA, summitNamesakeB] :=
  ⟨by decide,
    @C1_amended isWithinRadius200 [summitNamesakeA, summitNamesakeB]
      [summitNamesakeA, summitNamesakeB] (by decide)⟩

/-- C7: route enrichment during MERGE — if the incumbent's grade tuple is the
missing tuple (0,0,0,0,false,0) it adopts the incoming tuple wholesale; else if
the incoming tuple equals the missing tuple or the incumbent's, the incumbent
is kept; otherwise MergeConflict("route", route_name, "grade") is raised; and
in both non-conflict cases the incoming route's posts are appended to the
incumbent's posts without de-duplication. -/
theorem C7_route_enrichment (t s : RouteRelatedData) :
    (gradeTuple t.route = missingGrade →
      routeMergeObjects t s = Except.ok ⟨{ t.route with
        grade_af := s.route.grade_af
        grade_ou := s.route.grade_ou
        grade_rp := s.route.grade_rp
        grade_jump := s.route.grade_jump
        dangerous := s.route.dangerous
        star_count := s.route.star_count }, t.posts ++ s.posts⟩) ∧
    (gradeTuple t.route ≠ missingGrade →
      (gradeTuple s.route = missingGrade ∨ gradeTuple s.route = gradeTuple t.route) →
      routeMergeObjects t s = Except.ok ⟨t.route, t.posts ++ s.posts⟩) ∧
    (gradeTuple t.route ≠ missingGrade → gradeTuple s.route ≠ missingGrade →
      gradeTuple s.route ≠ gradeTuple t.route →
      routeMergeObjects t s = Except.error ⟨"route", s.route.route_name, "grade"⟩) := by
  refine ⟨?_, ?_, ?_⟩
  · intro ht
    rw [routeMergeObjects, if_pos ht]
  · intro ht hs
    rw [routeMergeObjects, if_neg ht, if_neg]
    push_neg
    intro hsm
    rcases hs with hs | hs
    · exact absurd hs hsm
    · exact hs
  · intro ht hs hst
    rw [routeMergeObjects, if_neg ht, if_pos ⟨hs, hst⟩]

/-- C7, witness: the conflict branch of the route-enrichment theorem at the
two conflicting "AW" routes of the repository's merge tests. -/
theorem C7_witness :
    routeMergeObjects ⟨⟨"AW", "", 4, 0, 0, 0, 0, false⟩, []⟩ ⟨⟨"AW", "", 2, 0, 0, 0, 0, false⟩, []⟩ =
      Except.error ⟨"route", "AW", "grade"⟩ :=
  (C7_route_enrichment ⟨⟨"AW", "", 4, 0, 0, 0, 0, false⟩, []⟩
    ⟨⟨"AW", "", 2, 0, 0, 0, 0, false⟩, []⟩).2.2 (by decide) (by decide) (by decide)

/-- C2: evaluation of `Summit._enrich_position` (`core/entities.py` lines
255-259) at the failing input — two summits carrying the same defined position
value.  The code raises MergeConflict("summit", name, "position") because it
never compares the two position values; the claim (and the module's own test
"Merging equal position data must not raise an error") requires this merge to
succeed with the incumbent unchanged. -/
theorem C2_code_eval :
    CoreSummit.enrichPosition
        ⟨some "Summit 1", [], [], some ⟨504620000, 147390000⟩⟩
        ⟨some "Summit 1", [], [], some ⟨504620000, 147390000⟩⟩ =
      Except.error ⟨"summit", "Summit 1", "position"⟩ := by
  decide

/-- C5: Position equality is by both fields — `is_equal_to` holds exactly when
the latitude integers and the longitude integers agree — and in particular a
freshly constructed Position(0,0) is equal to the reserved UNDEFINED
position. -/
theorem C5_position_equality :
    (∀ p q : GeoPos, GeoPos.is_equal_to p q = true ↔ (p.lat = q.lat ∧ p.lon = q.lon)) ∧
    GeoPos.is_equal_to ⟨0, 0⟩ UNDEFINED_GEOPOSITION = true := by
  constructor
  · intro p q
    simp [GeoPos.is_equal_to]
  · decide

/-- C5, witness: the field-equality criterion applied to a concrete pair of
equal positions. -/
theorem C5_witness : GeoPos.is_equal_to ⟨504620000, 147390000⟩ ⟨504620000, 147390000⟩ = true :=
  (C5_position_equality.1 ⟨504620000, 147390000⟩ ⟨504620000, 147390000⟩).mpr ⟨rfl, rfl⟩

theorem validateRoutes_eq_mapM (fixR : RouteE → Option RouteE) (input : CollectedData)
    (l : List (Nat × RouteE)) :
    validateRoutes fixR input l =
      l.mapM fun rr => (fixR rr.2).map fun r2 => (r2, input.iter_posts_of_route rr.1) := by
  induction l with
  | nil => rfl
  | cons rr rest ih =>
    rw [validateRoutes, List.mapM_cons]
    cases fixR rr.2 with
    | none => rfl
    | some r2 =>
      rw [ih]
      cases rest.mapM fun rr => (fixR rr.2).map fun r2 => (r2, input.iter_posts_of_route rr.1) with
      | none => rfl
      | some acc => rfl

theorem validationGo_eq (fixS : Summit → Option Summit) (fixR : RouteE → Option RouteE)
    (input : CollectedData) (l : List (Nat × Summit)) (o : CollectedData) :
    validationGo fixS fixR input l o =
      (l.filterMap fun e =>
        (fixS e.2).bind fun s2 =>
          ((input.iter_routes_of_summit e.1).mapM fun rr =>
            (fixR rr.2).map fun r2 => (r2, input.iter_posts_of_route rr.1)).map
            fun rps => (s2, rps)).foldlM
        (fun o d => writeSummitToPipe o d.1 d.2) o := by
  induction l generalizing o with
  | nil => rfl
  | cons e rest ih =>
    rw [validationGo, List.filterMap_cons]
    cases hS : fixS e.2 with
    | none =>
      dsimp only [Option.bind]
      exact ih o
    | some s2 =>
      have hvr := validateRoutes_eq_mapM fixR input (input.iter_routes_of_summit e.1)
      cases hR : validateRoutes fixR input (input.iter_routes_of_summit e.1) with
      | none =>
        rw [← hvr, hR]
        dsimp only [Option.bind, Option.map]
        exact ih o
      | some rps =>
        rw [← hvr, hR]
        dsimp only [Option.bind, Option.map]
        rw [List.foldlM_cons]
        cases hW : writeSummitToPipe o s2 rps with
        | error err => simp [Bind.bind, Except.bind]
        | ok o2 =>
          simp only [Bind.bind, Except.bind]
          exact ih o2

/-- C8: the VALIDATE stage processes each input summit as a unit — a summit
whose fixer or any of whose routes' fixers raises IncompleteData is omitted
entirely (with all its routes and posts), and every other summit is re-emitted
into the output pipe with all its routes and posts, preserving insertion
order.  The filter run equals writing exactly the declaratively validated
summits, in order, into the output pipe. -/
theorem C8_validation (fixS : Summit → Option Summit) (fixR : RouteE → Option RouteE)
    (input output : CollectedData) :
    validationFilter fixS fixR input output =
      (validatedSummits fixS fixR input).foldlM
        (fun o d => writeSummitToPipe o d.1 d.2) output :=
  validationGo_eq fixS fixR input input.iter_summits output

theorem pipeWf_empty : PipeWf emptyPipe := by
  constructor <;> intro k i hi <;> simp [emptyPipe] at hi

/-- C6 (amended): within one Pipe instance the handed-out ids are dense — each
add operation hands out the current entity count, so ids are consecutive from
the first insertion — and stable — iteration pairs already present survive
every later add operation unchanged.  The summit-id space and the route-id
space are distinguished by their static NewType only: both counters start at 0,
so the same integer value is handed out for different entity kinds (see the
counterexample). -/
theorem C6_amended (d : CollectedData) (hwf : PipeWf d) (s : Summit) (sid rid : Nat)
    (r : RouteE) (p : PostE) :
    ((d.add_summit s).2 = d.summits.length ∧
      (d.add_summit s).1.iter_summits = d.iter_summits ++ [(d.summits.length, s)]) ∧
    (∀ d2 i, d.add_route sid r = Except.ok (d2, i) →
      i = d.routes.length ∧
      d2.iter_summits = d.iter_summits ∧
      d2.iter_routes_of_summit sid = d.iter_routes_of_summit sid ++ [(i, r)] ∧
      (∀ k, k ≠ sid → d2.iter_routes_of_summit k = d.iter_routes_of_summit k) ∧
      (∀ k, d2.iter_posts_of_route k = d.iter_posts_of_route k)) ∧
    (∀ d3, d.add_post rid p = Except.ok d3 →
      d3.iter_summits = d.iter_summits ∧
      (∀ k, d3.iter_routes_of_summit k = d.iter_routes_of_summit k) ∧
      d3.iter_posts_of_route rid = d.iter_posts_of_route rid ++ [p] ∧
      (∀ k, k ≠ rid → d3.iter_posts_of_route k = d.iter_posts_of_route k)) := by
  refine ⟨⟨rfl, ?_⟩, ?_, ?_⟩
  · simp [CollectedData.iter_summits, CollectedData.add_summit, List.enum_append]
  · intro d2 i h
    rw [CollectedData.add_route] at h
    split at h
    · next hlt =>
      simp only [Except.ok.injEq, Prod.mk.injEq] at h
      obtain ⟨hd2, hi⟩ := h
      subst hd2
      subst hi
      refine ⟨rfl, rfl, ?_, ?_, fun k => rfl⟩
      · simp only [CollectedData.iter_routes_of_summit]
        have h1 : List.map (fun i => (i, (d.routes ++ [r]).getD i dummyRoute))
              (d.routes2summits sid) =
            List.map (fun i => (i, d.routes.getD i dummyRoute)) (d.routes2summits sid) :=
          List.map_congr_left fun x hx => by
            rw [List.getD_append _ _ _ _ (hwf.1 sid x hx)]
        rw [if_true, List.map_append, h1]
        simp [List.getD_append_right _ _ _ _ (le_refl _)]
      · intro k hk
        simp only [CollectedData.iter_routes_of_summit]
        rw [if_neg hk]
        apply List.map_congr_left
        intro x hx
        rw [List.getD_append _ _ _ _ (hwf.1 k x hx)]
    · exact absurd h (by simp)
  · intro d3 h
    rw [CollectedData.add_post] at h
    split at h
    · next hlt =>
      simp only [Except.ok.injEq] at h
      subst h
      refine ⟨rfl, fun k => rfl, ?_, ?_⟩
      · simp only [CollectedData.iter_posts_of_route]
        have h1 : List.map (fun i => (d.posts ++ [p]).getD i dummyPost) (d.posts2routes rid) =
            List.map (fun i => d.posts.getD i dummyPost) (d.posts2routes rid) :=
          List.map_congr_left fun x hx => by
            rw [List.getD_append _ _ _ _ (hwf.2 rid x hx)]
        rw [if_true, List.map_append, h1]
        simp [List.getD_append_right _ _ _ _ (le_refl _)]
      · intro k hk
        simp only [CollectedData.iter_posts_of_route]
        rw [if_neg hk]
        apply List.map_congr_left
        intro x hx
        rw [List.getD_append _ _ _ _ (hwf.2 k x hx)]
    · exact absurd h (by simp)

/-- C6, counterexample: the very first summit and the very first route of a
Pipe are both handed the id value 0 — a SummitId value and a RouteId value do
collide (the two NewTypes share the same dense integer range). -/
theorem C6_counterexample :
    (emptyPipe.add_summit ⟨some "Falkenturm", [], [], none, none⟩).2 = 0 ∧
    ((emptyPipe.add_summit ⟨some "Falkenturm", [], [], none, none⟩).1.add_route 0
        ⟨"AW", "II", 0, 0, 0, 0, 0, false⟩).map Prod.snd = Except.ok 0 :=
  ⟨rfl, rfl⟩

/-- C6, witness: density and stability at a concrete instance — the empty
pipe's first summit insertion hands out id 0 and extends the iteration with
exactly that pair. -/
theorem C6_witness :
    (emptyPipe.add_summit ⟨some "Falkenturm", [], [], none, none⟩).2 = 0 ∧
    (emptyPipe.add_summit ⟨some "Falkenturm", [], [], none, none⟩).1.iter_summits =
      emptyPipe.iter_summits ++ [(0, ⟨some "Falkenturm", [], [], none, none⟩)] :=
  (C6_amended emptyPipe pipeWf_empty ⟨some "Falkenturm", [], [], none, none⟩ 0 0
    ⟨"AW", "II", 0, 0, 0, 0, 0, false⟩ ⟨"", "", "", 0⟩).1

/-- C3, counterexample: two of the five tables are not written with
INSERT OR IGNORE — the summits INSERT is a plain INSERT with an
ON CONFLICT DO UPDATE upsert clause, and the summit-names INSERT is a plain
INSERT. -/
theorem C3_counterexample :
    summitsInsertSql.toList.take 16 ≠ "INSERT OR IGNORE".toList ∧
    summitNamesInsertSql.toList.take 16 ≠ "INSERT OR IGNORE".toList := by
  refine ⟨by decide, by decide⟩

set_option maxRecDepth 8192 in
/-- C3 (amended): during the WRITE stage, the multi-value INSERTs of the
database_metadata, routes and posts tables are INSERT OR IGNORE statements
(re-observing an identical row is a no-op there), while the summits table is
written with an INSERT ... ON CONFLICT DO UPDATE upsert whose UPDATE clause
only rewrites rows holding the UNDEFINED position (0, 0), and the summit_names
table is written with a plain INSERT. -/
theorem C3_amended :
    metadataInsertSql.toList.take 16 = "INSERT OR IGNORE".toList ∧
    routesInsertSql.toList.take 16 = "INSERT OR IGNORE".toList ∧
    postsInsertSql.toList.take 16 = "INSERT OR IGNORE".toList ∧
    summitsInsertSql =
      "INSERT INTO summits (latitude, longitude) VALUES (?, ?) " ++
        "ON CONFLICT DO UPDATE SET latitude=excluded.latitude, " ++
        "longitude=excluded.longitude WHERE latitude=0 AND longitude=0" ∧
    summitNamesInsertSql = "INSERT INTO summit_names (summit_id, name, usage) VALUES (?, ?, ?)" := by
  refine ⟨by decide, by decide, by decide, by decide, by decide⟩

/-- C4, counterexample: a summit without an official name but with an
alternate name gets exactly one summit_names row — the derived name at
usage 0 — and no alternate name is inserted with usage 1. -/
theorem C4_counterexample :
    (writeToSummitNamesTable 7 ⟨none, ["Alternate A"], [], none, none⟩).1 =
      [⟨7, "Alternate A", 0⟩] ∧
    ∀ row ∈ (writeToSummitNamesTable 7 ⟨none, ["Alternate A"], [], none, none⟩).1,
      row.usage ≠ 1 := by
  refine ⟨by decide, by decide⟩

/-- C4 (amended): for every summit written during the WRITE stage — when its
official name is non-empty, the official name is inserted into summit_names
with usage 0 and each alternate name with usage 1; when the official name is
empty, only the derived name of the summit is inserted with usage 0 (its
alternate names are not written) and a warning is logged. -/
theorem C4_amended (summit_id : Int) (s : Summit) :
    (nameTruthy s.official_name = true →
      writeToSummitNamesTable summit_id s =
        (⟨summit_id, s.official_name.getD "", 0⟩ ::
          s.alternate_names.map fun a => ⟨summit_id, a, 1⟩, false)) ∧
    (nameTruthy s.official_name = false →
      writeToSummitNamesTable summit_id s = ([⟨summit_id, s.name, 0⟩], true)) := by
  constructor
  · intro h
    rw [writeToSummitNamesTable, if_pos h]
  · intro h
    rw [writeToSummitNamesTable, if_neg (by simp [h])]

/-- C4, witness: the official-name branch at the sink test's summit — the
official name row carries usage 0, the alternate row usage 1. -/
theorem C4_witness :
    writeToSummitNamesTable 3 ⟨some "Foobar Rock", ["Felsen"], [], none, none⟩ =
      ([⟨3, "Foobar Rock", 0⟩, ⟨3, "Felsen", 1⟩], false) :=
  (C4_amended 3 ⟨some "Foobar Rock", ["Felsen"], [], none, none⟩).1 (by decide)

/-- C9: the pipeline engine executes the factory's stages in the fixed order
IMPORT (the two source filters) then MERGE then VALIDATE then WRITE; every
stage gets a fresh empty output pipe, receives the previous stage's output
pipe as its input (the first stage an empty pipe), and the execution trace is
exactly source, source, merge, validation, sink — no later stage's filter runs
before an earlier stage's filters have finished. -/
theorem C9_engine (osm teufelsturm mrg val wrt : FilterF) :
    produceRoutedb (allFilterStages osm teufelsturm mrg val wrt) =
      (wrt.run (val.run (mrg.run (teufelsturm.run emptyPipe (osm.run emptyPipe emptyPipe))
          emptyPipe) emptyPipe) emptyPipe,
        [⟨0, osm.filter_name, emptyPipe⟩,
         ⟨0, teufelsturm.filter_name, emptyPipe⟩,
         ⟨1, mrg.filter_name, teufelsturm.run emptyPipe (osm.run emptyPipe emptyPipe)⟩,
         ⟨2, val.filter_name,
           mrg.run (teufelsturm.run emptyPipe (osm.run emptyPipe emptyPipe)) emptyPipe⟩,
         ⟨3, wrt.filter_name,
           val.run (mrg.run (teufelsturm.run emptyPipe (osm.run emptyPipe emptyPipe))
             emptyPipe) emptyPipe⟩]) :=
  rfl

/-- C10: `Summit.enrich` never modifies the incoming summit — on the
two-object heap, every write of the method targets a field of `self`, so the
`other` component of the final heap equals the input `other`, both when the
method returns normally and when it raises MergeConflictError. -/
theorem C10_enrich_frame (s o : CoreSummit) :
    (CoreSummit.enrichPair s o).2.2 = o := by
  unfold CoreSummit.enrichPair
  cases CoreSummit.enrichOfficialName s o with
  | error e => rfl
  | ok s1 =>
    dsimp only
    cases CoreSummit.enrichPosition
        (CoreSummit.enrichUnspecifiedNames (CoreSummit.enrichAlternateNames s1 o) o) o with
    | error e => rfl
    | ok s4 => rfl

end Trad
